import Mathlib

/-!
Shallow embedding of `graphqlws/internal/connection/connection.go`
(the per-connection protocol engine of the graphql-transport-ws repository)
and proofs about its protocol behaviour.

The dispatcher (`readLoop`) is embedded as a step function over the
operation-tracking table, external collaborators (JSON decoding, the
`GraphQLService`) are oracle parameters, the streaming goroutine is a
function of its resolved select outcomes, and the teardown / writer
disciplines are small labelled transition systems.
-/

namespace GraphqlWS

/-- Wire message types, the `operationMessageType` constants of connection.go. -/
inductive operationMessageType where
  | complete
  | connection_ack
  | connection_error
  | connection_init
  | ka
  | connection_terminate
  | data
  | error
  | start
  | stop
  | ping
  | receive
  | pong
deriving DecidableEq, Repr

/-- String form of a message type, as used by `fmt` verbs in connection.go. -/
def typeName : operationMessageType → String
  | .complete => "complete"
  | .connection_ack => "connection_ack"
  | .connection_error => "connection_error"
  | .connection_init => "connection_init"
  | .ka => "ka"
  | .connection_terminate => "connection_terminate"
  | .data => "data"
  | .error => "error"
  | .start => "start"
  | .stop => "stop"
  | .ping => "ping"
  | .receive => "receive"
  | .pong => "pong"

/-- Hexadecimal digit, lowercase, as emitted by Go `encoding/json` escapes. -/
def hexDig (n : Nat) : Char :=
  if n < 10 then Char.ofNat (48 + n) else Char.ofNat (87 + n)

/-- Value of a lowercase hexadecimal digit character. -/
def hexVal (c : Char) : Option Nat :=
  if 48 ≤ c.toNat ∧ c.toNat ≤ 57 then some (c.toNat - 48)
  else if 97 ≤ c.toNat ∧ c.toNat ≤ 102 then some (c.toNat - 87)
  else none

/-- Escaping of one character of a Go string by `encoding/json` (default
encoder: quotes, backslash, newline/cr/tab, other control characters,
the HTML-sensitive characters and U+2028/U+2029 via a uXXXX escape). -/
def escapeChar (c : Char) : List Char :=
  if c = '"' then ['\\', '"']
  else if c = '\\' then ['\\', '\\']
  else if c = '\n' then ['\\', 'n']
  else if c = '\r' then ['\\', 'r']
  else if c = '\t' then ['\\', 't']
  else if c.toNat < 32 ∨ c = '<' ∨ c = '>' ∨ c = '&' ∨ c.toNat = 8232 ∨ c.toNat = 8233 then
    ['\\', 'u', hexDig (c.toNat / 4096 % 16), hexDig (c.toNat / 256 % 16),
      hexDig (c.toNat / 16 % 16), hexDig (c.toNat % 16)]
  else [c]

/-- Escaping of a whole string body. -/
def escapeList : List Char → List Char
  | [] => []
  | c :: cs => escapeChar c ++ escapeList cs

/-- Model of `errPayload` (connection.go lines 279-286): `json.Marshal` of a
struct with a single `message` string field, the marshal error ignored.
For such a struct Go's marshaller always succeeds and produces the object
with the escaped message string. -/
def errPayload (msg : String) : String :=
  "\x7b\"message\":\"" ++ String.mk (escapeList msg.data) ++ "\"\x7d"

/-- Inverse of a simple (two-character) escape. -/
def escSimple (e : Char) : Option Char :=
  if e = '"' then some '"'
  else if e = '\\' then some '\\'
  else if e = 'n' then some '\n'
  else if e = 'r' then some '\r'
  else if e = 't' then some '\t'
  else none

/-- Prepend a decoded character to a string-literal parse result. -/
def consFst (c : Char) : Option (List Char × List Char) → Option (List Char × List Char)
  | some (s, r) => some (c :: s, r)
  | none => none

/-- Combine four hexadecimal digit values into a character. -/
def hexQuad (a b c d : Char) : Option Char :=
  match hexVal a, hexVal b, hexVal c, hexVal d with
  | some ha, some hb, some hc, some hd =>
      some (Char.ofNat (ha * 4096 + hb * 256 + hc * 16 + hd))
  | _, _, _, _ => none

/-- Parse the body of a JSON string literal up to its closing quote,
returning the decoded characters and the remaining input. -/
def unescapeLit : List Char → Option (List Char × List Char)
  | [] => none
  | c :: rest =>
      if c = '"' then some ([], rest)
      else if c = '\\' then
        match rest with
        | [] => none
        | e :: rest2 =>
            if e = 'u' then
              match rest2 with
              | a :: b :: x :: d :: rest3 =>
                  match hexQuad a b x d with
                  | some ch => consFst ch (unescapeLit rest3)
                  | none => none
              | _ => none
            else
              match escSimple e with
              | some ch => consFst ch (unescapeLit rest2)
              | none => none
      else consFst c (unescapeLit rest)

/-- Match a literal character prefix, returning the remainder. -/
def dropLit : List Char → List Char → Option (List Char)
  | [], l => some l
  | p :: ps, c :: cs => if p = c then dropLit ps cs else none
  | _ :: _, [] => none

/-- Strict parser for the exact shape `errPayload` produces: a JSON object
with a single string-valued `message` member. -/
def parseErrPayload (s : String) : Option String :=
  match dropLit ("\x7b\"message\":\"".data) s.data with
  | none => none
  | some rest =>
    match unescapeLit rest with
    | none => none
    | some (m, r) => if r = ['\x7d'] then some (String.mk m) else none

/-- Payload of a `start` message (`startMessagePayload` in connection.go). -/
structure startMessagePayload where
  operationName : String
  query : String
  vars : List (String × String)
deriving DecidableEq, Repr

/-- Payload of a `receive` message (`receiveMessagePayload` in connection.go). -/
structure receiveMessagePayload where
  id : String
deriving DecidableEq, Repr

/-- Wire envelope (`operationMessage` in connection.go); the payload is the
raw JSON bytes, carried opaquely. -/
structure operationMessage where
  id : String
  payload : String
  type : operationMessageType
deriving DecidableEq, Repr

/-- Opaque response of `GraphQLService.Exec`. -/
structure GoResponse where
  raw : String
deriving DecidableEq, Repr

/-- Outbound frame as produced by a `send(id, type, payload)` call. -/
structure Frame where
  id : String
  type : operationMessageType
  payload : Option String
deriving DecidableEq, Repr

/-- Observable calls the dispatcher makes into the `GraphQLService`. -/
inductive Effect where
  | subscribeCall (query opName : String) (vars : List (String × String))
  | execCall (query : String)
deriving DecidableEq, Repr

/-- External collaborators of the dispatcher: `encoding/json` decoding of the
typed payloads, the subscription engine's outcome for a `Subscribe` call, and
`Exec` with the marshalling of its response. -/
structure Env where
  unmarshalInit : String → Except String Unit
  unmarshalStart : String → Except String startMessagePayload
  unmarshalReceive : String → Except String receiveMessagePayload
  subscribeRes : String → String → List (String × String) → Except String Unit
  exec : String → GoResponse
  marshalResponse : GoResponse → Except String String

/-- Dispatcher state: the `opDone` table mapping operation id to its
cancellation handle (handles modelled as fresh naturals), the fresh-handle
supply, and the set of handles whose cancellation has been invoked. -/
structure DState where
  opDone : List (String × Nat)
  nextTok : Nat
  cancelled : List Nat
deriving DecidableEq, Repr

/-- Lookup in the operation table (Go map index). -/
def tblGet (id : String) : List (String × Nat) → Option Nat
  | [] => none
  | (k, v) :: rest => if k = id then some v else tblGet id rest

/-- Update/insert in the operation table (Go map assignment). -/
def tblSet (id : String) (v : Nat) : List (String × Nat) → List (String × Nat)
  | [] => [(id, v)]
  | (k, w) :: rest => if k = id then (id, v) :: rest else (k, w) :: tblSet id v rest

/-- Removal from the operation table (Go `delete`). -/
def tblDel (id : String) : List (String × Nat) → List (String × Nat)
  | [] => []
  | (k, w) :: rest => if k = id then tblDel id rest else (k, w) :: tblDel id rest

/-- Result of dispatching one inbound message: successor state, frames given
to `send` by the dispatcher goroutine in order, service calls made, and
whether the read loop keeps running. -/
structure StepOut where
  st : DState
  frames : List Frame
  effects : List Effect
  running : Bool
deriving Repr

/-- Query string sent by the `ping` branch. -/
def pingQuery : String := "\x7bcheck_subscription\x7d"

/-- Query string built by the `receive` branch: the client-supplied id is
interpolated directly into the fixed template
`mutation \x7breceive_socket_event(id:%s)\x7d` by `fmt.Sprintf`. -/
def receiveQuery (rid : String) : String :=
  "mutation \x7breceive_socket_event(id:" ++ rid ++ ")\x7d"

/-- One iteration of the `readLoop` dispatch switch (connection.go lines
172-275) on a successfully read message. Frames sent asynchronously by a
spawned streaming goroutine are not part of `frames`; the spawned
operation is visible through the table registration and the fresh handle. -/
def handleMsg (env : Env) (st : DState) (msg : operationMessage) : StepOut :=
  match msg.type with
  | .connection_init =>
      match env.unmarshalInit msg.payload with
      | .error _ =>
          ⟨st, [⟨"", .connection_error,
            some (errPayload "invalid payload for type: connection_init")⟩], [], true⟩
      | .ok _ => ⟨st, [⟨"", .connection_ack, none⟩], [], true⟩
  | .start =>
      if msg.id = "" then
        ⟨st, [⟨"", .connection_error,
          some (errPayload "missing ID for start operation")⟩], [], true⟩
      else
        match env.unmarshalStart msg.payload with
        | .error _ =>
            ⟨st, [⟨msg.id, .connection_error,
              some (errPayload "invalid payload for type: start")⟩], [], true⟩
        | .ok osp =>
            match env.subscribeRes osp.query osp.operationName osp.vars with
            | .error e =>
                ⟨{ st with
                    nextTok := st.nextTok + 1
                    cancelled := st.nextTok :: st.cancelled },
                  [⟨msg.id, .error, some (errPayload e)⟩, ⟨msg.id, .complete, none⟩],
                  [.subscribeCall osp.query osp.operationName osp.vars], true⟩
            | .ok _ =>
                ⟨{ st with
                    nextTok := st.nextTok + 1
                    opDone := tblSet msg.id st.nextTok st.opDone },
                  [],
                  [.subscribeCall osp.query osp.operationName osp.vars], true⟩
  | .stop =>
      match tblGet msg.id st.opDone with
      | some tok =>
          ⟨{ st with
              opDone := tblDel msg.id st.opDone
              cancelled := tok :: st.cancelled },
            [⟨msg.id, .complete, none⟩], [], true⟩
      | none => ⟨st, [⟨msg.id, .complete, none⟩], [], true⟩
  | .ping =>
      match env.marshalResponse (env.exec pingQuery) with
      | .error e =>
          ⟨st, [⟨msg.id, .error, some (errPayload e)⟩], [.execCall pingQuery], true⟩
      | .ok rj => ⟨st, [⟨"", .pong, some rj⟩], [.execCall pingQuery], true⟩
  | .receive =>
      match env.unmarshalReceive msg.payload with
      | .error e => ⟨st, [⟨msg.id, .error, some (errPayload e)⟩], [], true⟩
      | .ok rp =>
          match env.marshalResponse (env.exec (receiveQuery rp.id)) with
          | .error e =>
              ⟨st, [⟨msg.id, .error, some (errPayload e)⟩],
                [.execCall (receiveQuery rp.id)], true⟩
          | .ok rj =>
              ⟨st, [⟨"", .pong, some rj⟩], [.execCall (receiveQuery rp.id)], true⟩
  | .connection_terminate => ⟨st, [], [], false⟩
  | t =>
      ⟨st, [⟨msg.id, .error,
        some (errPayload ("unknown operation message of type: " ++ typeName t))⟩], [], true⟩

/-- Value received from the subscription channel, as seen by `json.Marshal`:
either it encodes to some JSON bytes or marshalling fails (Go `interface`
values such as functions or channels cannot be encoded). -/
inductive GoVal where
  | enc (s : String)
  | unenc (e : String)
deriving DecidableEq, Repr

/-- Outcome of `json.Marshal` on one channel value. -/
def goMarshal : GoVal → Except String String
  | .enc s => .ok s
  | .unenc e => .error e

/-- One resolved outcome of the streaming goroutine's `select` between
`opCtx.Done()` and a receive on the subscription channel. -/
inductive StreamEv where
  | ctxDone
  | chanVal (v : GoVal)
  | chanClosed
deriving DecidableEq, Repr

/-- Streaming goroutine spawned by a successful `start` (connection.go lines
215-235): exits silently on cancellation; on channel close sends `complete`
and exits; on a value sends `data` on successful encoding, or an `error`
frame on encoding failure and continues. -/
def streamLoop (id : String) : List StreamEv → List Frame
  | [] => []
  | .ctxDone :: _ => []
  | .chanClosed :: _ => [⟨id, .complete, none⟩]
  | .chanVal v :: rest =>
      match goMarshal v with
      | .ok p => ⟨id, .data, some p⟩ :: streamLoop id rest
      | .error e => ⟨id, .error, some (errPayload e)⟩ :: streamLoop id rest

/-- Connection teardown state: observed transport faults, the root scope,
the number of `ws.Close()` invocations, and whether each of the two loops
(reader = dispatcher goroutine, writer = sender goroutine) has exited. -/
structure TState where
  readErr : Bool
  termMsg : Bool
  writeErr : Bool
  cancelled : Bool
  closeCount : Nat
  readerExited : Bool
  writerExited : Bool
deriving DecidableEq, Repr

/-- Model of `conn.close()` (connection.go lines 156-159): cancel the root
scope (idempotent), then call `ws.Close()` once more. -/
def connClose (s : TState) : TState :=
  { s with
      cancelled := true
      closeCount := s.closeCount + 1 }

/-- Events of a connection's teardown: transport faults, the external cancel
function returned by `Connect`, and the two loops running their deferred
`conn.close()` when their exit condition holds. The reader exits when
`ReadJSON` fails (transport read error, or the socket already closed) or a
`connection_terminate` was read; the writer exits when the root scope is
cancelled or a write failed. -/
inductive TEv where
  | readError
  | termRecv
  | writeError
  | extCancel
  | readerExit
  | writerExit
deriving DecidableEq, Repr

/-- One scheduler step of the teardown model. -/
def tstep (s : TState) : TEv → TState
  | .readError => if s.readerExited then s else { s with readErr := true }
  | .termRecv => if s.readerExited then s else { s with termMsg := true }
  | .writeError => if s.writerExited then s else { s with writeErr := true }
  | .extCancel => { s with cancelled := true }
  | .readerExit =>
      if s.readerExited then s
      else if s.readErr ∨ s.termMsg ∨ 0 < s.closeCount then
        connClose { s with readerExited := true }
      else s
  | .writerExit =>
      if s.writerExited then s
      else if s.cancelled ∨ s.writeErr then
        connClose { s with writerExited := true }
      else s

/-- Run of the teardown model over a schedule. -/
def trun (s : TState) : List TEv → TState
  | [] => s
  | e :: es => trun (tstep s e) es

/-- State of a freshly connected session. -/
def tInit : TState := ⟨false, false, false, false, 0, false, false⟩

/-- Thread identities of one connection: the sender's writer goroutine, the
dispatcher (read loop), and the per-operation streaming goroutines. -/
inductive ThreadId where
  | writer
  | dispatcher
  | op (n : Nat)
deriving DecidableEq, Repr

/-- Observable actions on the transport and on the sender's internal
channel: the two transport write operations (`WriteJSON`,
`SetWriteDeadline`), the read, the close, and the two possible outcomes of
a `send` call (hand the frame over to the writer / no-op after shutdown). -/
inductive WsAct where
  | writeJSON (f : Frame)
  | setWriteDeadline
  | readJSON
  | closeWs
  | sendHandoff (f : Frame)
  | sendNoop
deriving DecidableEq, Repr

/-- Writer-discipline state: whether the sender's `stop` channel is closed,
the rendezvous slot of the unbuffered `out` channel, whether the root scope
is done, and the frames actually written to the transport. -/
structure WLState where
  stopClosed : Bool
  slot : Option Frame
  ctxDone : Bool
  written : List Frame
deriving DecidableEq, Repr

/-- Labelled transition system of the sender discipline (connection.go
lines 114-153 plus the two `conn.close` call sites): producers (dispatcher
and streaming goroutines) interact with the transport only through `send`;
the writer goroutine alone performs `SetWriteDeadline` and `WriteJSON`. -/
inductive WStep : WLState → ThreadId × WsAct → WLState → Prop where
  | producerHandoff (t : ThreadId) (f : Frame) (s : WLState)
      (hne : t ≠ .writer) (hstop : s.stopClosed = false) (hslot : s.slot = none) :
      WStep s (t, .sendHandoff f) { s with slot := some f }
  | producerNoop (t : ThreadId) (s : WLState)
      (hne : t ≠ .writer) (hstop : s.stopClosed = true) :
      WStep s (t, .sendNoop) s
  | writerDeadline (s : WLState) (f : Frame)
      (hslot : s.slot = some f) (hctx : s.ctxDone = false) :
      WStep s (.writer, .setWriteDeadline) s
  | writerWrite (s : WLState) (f : Frame)
      (hslot : s.slot = some f) (hctx : s.ctxDone = false) :
      WStep s (.writer, .writeJSON f)
        { s with
            slot := none
            written := s.written ++ [f] }
  | dispatcherRead (s : WLState) :
      WStep s (.dispatcher, .readJSON) s
  | dispatcherExit (s : WLState) :
      WStep s (.dispatcher, .closeWs) { s with ctxDone := true }
  | writerExit (s : WLState) (hctx : s.ctxDone = true) :
      WStep s (.writer, .closeWs) { s with stopClosed := true }

/-- Scheduler choices after a `stop` message cancelled an operation whose
upstream channel still has pending values: the dispatcher handles the stop
(cancel + `complete`); the streaming goroutine's `select` either takes the
channel case (`goRecv`, possible whenever values are pending or the channel
is closed, even after cancellation — Go's `select` has no priority) or the
`ctx.Done` case (`goDone`, possible once cancelled). -/
inductive StopEv where
  | dispatchStop
  | goRecv
  | goDone
deriving DecidableEq, Repr

/-- State of the stop-race model: remaining upstream values (the channel
closes when they are drained), the operation's cancellation flag, whether
the goroutine exited, whether the single stop message was handled, and the
frames sent so far, each tagged with whether the dispatcher sent it. -/
structure StopState where
  pending : List GoVal
  opCancelled : Bool
  goExited : Bool
  stopHandled : Bool
  frames : List (Bool × Frame)
deriving DecidableEq, Repr

/-- One scheduler step of the stop-race model. -/
def stopStep (id : String) (s : StopState) : StopEv → StopState
  | .dispatchStop =>
      if s.stopHandled then s
      else
        { s with
            stopHandled := true
            opCancelled := true
            frames := s.frames ++ [(true, ⟨id, .complete, none⟩)] }
  | .goRecv =>
      if s.goExited then s
      else
        match s.pending with
        | v :: rest =>
            match goMarshal v with
            | .ok p =>
                { s with
                    pending := rest
                    frames := s.frames ++ [(false, ⟨id, .data, some p⟩)] }
            | .error e =>
                { s with
                    pending := rest
                    frames := s.frames ++ [(false, ⟨id, .error, some (errPayload e)⟩)] }
        | [] =>
            { s with
                goExited := true
                frames := s.frames ++ [(false, ⟨id, .complete, none⟩)] }
  | .goDone =>
      if s.goExited then s
      else if s.opCancelled then { s with goExited := true }
      else s

/-- Run of the stop-race model over a schedule. -/
def stopRun (id : String) (s : StopState) : List StopEv → StopState
  | [] => s
  | e :: es => stopRun id (stopStep id s e) es

/-- Initial stop-race state: a live operation with the given pending
upstream values, stop not yet handled. -/
def stopInit (vs : List GoVal) : StopState := ⟨vs, false, false, false, []⟩

/-- Checker for the claim "no data frame for that id is sent after that
complete". -/
def noDataAfterComplete (id : String) : List Frame → Bool
  | [] => true
  | f :: rest =>
      (if f.id = id ∧ f.type = operationMessageType.complete then
        rest.all (fun g =>
          !(decide (g.id = id) && decide (g.type = operationMessageType.data)))
      else true)
      && noDataAfterComplete id rest

/-- Checker for the frame shape claimed for a successful `start`: zero or
more `data` frames followed by exactly one `complete`, or exactly one
`error` followed by one `complete`. -/
def c1ShapeB (id : String) (fs : List Frame) : Bool :=
  (match fs.getLast? with
   | some f =>
      decide (f = ⟨id, operationMessageType.complete, none⟩)
      && fs.dropLast.all (fun g =>
          decide (g.id = id) && decide (g.type = operationMessageType.data))
   | none => false)
  ||
  (match fs with
   | [f1, f2] =>
      decide (f1.id = id) && decide (f1.type = operationMessageType.error)
      && decide (f2 = ⟨id, operationMessageType.complete, none⟩)
   | _ => false)

/-- Number of `complete` frames for the given id sent by the dispatcher in
the stop-race model. -/
def dispCompleteCount (id : String) (fs : List (Bool × Frame)) : Nat :=
  fs.countP (fun p => p.1 && decide (p.2 = ⟨id, operationMessageType.complete, none⟩))

/-- Concrete environment whose `Subscribe` always fails with "boom". -/
def envW : Env where
  unmarshalInit := fun _ => .ok ()
  unmarshalStart := fun _ => .ok ⟨"opn", "q", []⟩
  unmarshalReceive := fun p => .ok ⟨p⟩
  subscribeRes := fun _ _ _ => .error "boom"
  exec := fun q => ⟨q⟩
  marshalResponse := fun r => .ok r.raw

/-- Concrete environment whose `Subscribe` always succeeds. -/
def envOk : Env where
  unmarshalInit := fun _ => .ok ()
  unmarshalStart := fun _ => .ok ⟨"opn", "q", []⟩
  unmarshalReceive := fun p => .ok ⟨p⟩
  subscribeRes := fun _ _ _ => .ok ()
  exec := fun q => ⟨q⟩
  marshalResponse := fun r => .ok r.raw

/-- Empty dispatcher state. -/
def stW : DState := ⟨[], 0, []⟩

/-- Dispatcher state already tracking operation "1" with handle 0. -/
def stDup : DState := ⟨[("1", 0)], 1, []⟩

/-- Stream trace for a successful `start` with no stop and no teardown
(no `ctxDone`): a value that fails to marshal, a value that marshals, then
the upstream channel closes. -/
def c1BadTrace : List StreamEv :=
  [.chanVal (.unenc "no"), .chanVal (.enc "A"), .chanClosed]

/-- Concrete frame and sender state used to exercise the writer LTS. -/
def wF : Frame := ⟨"1", .data, some "A"⟩

/-- Sender state with a frame pending in the rendezvous slot. -/
def wS0 : WLState := ⟨false, some wF, false, []⟩

theorem hexVal_hexDig (n : Nat) (h : n < 16) : hexVal (hexDig n) = some n := by
  interval_cases n <;> decide

theorem unescape_escapeChar (c : Char) (l : List Char) :
    unescapeLit (escapeChar c ++ l) = consFst c (unescapeLit l) := by
  unfold escapeChar
  split_ifs with h1 h2 h3 h4 h5 h6
  · subst h1; simp only [List.cons_append, List.nil_append]
    rw [unescapeLit.eq_def]; simp [escSimple]
  · subst h2; simp only [List.cons_append, List.nil_append]
    rw [unescapeLit.eq_def]; simp [escSimple]
  · subst h3; simp only [List.cons_append, List.nil_append]
    rw [unescapeLit.eq_def]; simp [escSimple]
  · subst h4; simp only [List.cons_append, List.nil_append]
    rw [unescapeLit.eq_def]; simp [escSimple]
  · subst h5; simp only [List.cons_append, List.nil_append]
    rw [unescapeLit.eq_def]; simp [escSimple]
  · have d1 := hexVal_hexDig (c.toNat / 4096 % 16) (Nat.mod_lt _ (by norm_num))
    have d2 := hexVal_hexDig (c.toNat / 256 % 16) (Nat.mod_lt _ (by norm_num))
    have d3 := hexVal_hexDig (c.toNat / 16 % 16) (Nat.mod_lt _ (by norm_num))
    have d4 := hexVal_hexDig (c.toNat % 16) (Nat.mod_lt _ (by norm_num))
    have hlt : c.toNat < 65536 := by
      rcases h6 with h | h | h | h | h | h
      · omega
      · subst h; decide
      · subst h; decide
      · subst h; decide
      · omega
      · omega
    have hsum : c.toNat / 4096 % 16 * 4096 + c.toNat / 256 % 16 * 256 +
        c.toNat / 16 % 16 * 16 + c.toNat % 16 = c.toNat := by omega
    simp only [List.cons_append, List.nil_append]
    rw [unescapeLit.eq_def]
    simp [hexQuad, d1, d2, d3, d4, hsum, Char.ofNat_toNat]
  · simp only [List.cons_append, List.nil_append]
    rw [unescapeLit.eq_def]
    simp [h1, h2]

theorem unescape_escapeList (s l : List Char) :
    unescapeLit (escapeList s ++ '"' :: l) = some (s, l) := by
  induction s with
  | nil =>
    simp only [escapeList, List.nil_append]
    rw [unescapeLit.eq_def]; simp
  | cons c cs ih =>
    simp [escapeList, List.append_assoc, unescape_escapeChar, ih, consFst]

theorem dropLit_self (p l : List Char) : dropLit p (p ++ l) = some l := by
  induction p with
  | nil => rfl
  | cons c cs ih => simp [dropLit, ih]

theorem parse_errPayload (m : String) : parseErrPayload (errPayload m) = some m := by
  obtain ⟨md⟩ := m
  unfold parseErrPayload errPayload
  have hdata : (("\x7b\"message\":\"" : String) ++ String.mk (escapeList (String.mk md).data)
      ++ ("\"\x7d" : String)).data
      = ("\x7b\"message\":\"" : String).data ++ (escapeList md ++ '"' :: ['\x7d']) := by
    simp [String.data_append]
  rw [hdata, dropLit_self]
  simp [unescape_escapeList]

theorem tblGet_tblDel (id : String) (t : List (String × Nat)) :
    tblGet id (tblDel id t) = none := by
  induction t with
  | nil => rfl
  | cons p rest ih =>
    obtain ⟨k, w⟩ := p
    by_cases h : k = id
    · simp [tblDel, h, ih]
    · simp [tblDel, h, tblGet, ih]

theorem tblGet_tblSet (id : String) (v : Nat) (t : List (String × Nat)) :
    tblGet id (tblSet id v t) = some v := by
  induction t with
  | nil => simp [tblSet, tblGet]
  | cons p rest ih =>
    obtain ⟨k, w⟩ := p
    by_cases h : k = id
    · simp [tblSet, h, tblGet]
    · simp [tblSet, h, tblGet, ih]

/-- C5: processing `stop` is idempotent: for any id, issuing `stop` twice in
a row yields a `complete` reply keyed to that id both times, produces no
error reply and no crash, and the second `stop` leaves the
operation-tracking table (indeed the whole dispatcher state) exactly as it
was after the first. -/
theorem C5_stop_idempotent (env : Env) (st : DState) (id payload : String) :
    (handleMsg env st ⟨id, payload, .stop⟩).frames = [⟨id, .complete, none⟩] ∧
    (handleMsg env (handleMsg env st ⟨id, payload, .stop⟩).st ⟨id, payload, .stop⟩).frames
      = [⟨id, .complete, none⟩] ∧
    (handleMsg env (handleMsg env st ⟨id, payload, .stop⟩).st ⟨id, payload, .stop⟩).st
      = (handleMsg env st ⟨id, payload, .stop⟩).st ∧
    (handleMsg env st ⟨id, payload, .stop⟩).running = true ∧
    (handleMsg env (handleMsg env st ⟨id, payload, .stop⟩).st ⟨id, payload, .stop⟩).running
      = true := by
  rcases h : tblGet id st.opDone with _ | tok <;>
    simp [handleMsg, h, tblGet_tblDel]

/-- C6: a `start` message whose id is empty yields exactly one
`connection_error` frame carrying the message "missing ID for start
operation", registers nothing, makes no `Subscribe` call, and leaves the
connection running. -/
theorem C6_start_missing_id (env : Env) (st : DState) (payload : String) :
    (handleMsg env st ⟨"", payload, .start⟩).frames
      = [⟨"", .connection_error, some (errPayload "missing ID for start operation")⟩] ∧
    (handleMsg env st ⟨"", payload, .start⟩).st = st ∧
    (handleMsg env st ⟨"", payload, .start⟩).effects = [] ∧
    (handleMsg env st ⟨"", payload, .start⟩).running = true := by
  simp [handleMsg]

/-- C7: a `start` with a present id and decodable payload whose `Subscribe`
call fails replies `error` then `complete` keyed to that id, cancels the
freshly created operation scope (the fresh handle is recorded cancelled),
registers no operation, and leaves the connection running. -/
theorem C7_subscribe_error (env : Env) (st : DState) (msg : operationMessage)
    (osp : startMessagePayload) (e : String)
    (hty : msg.type = .start) (hid : msg.id ≠ "")
    (hun : env.unmarshalStart msg.payload = .ok osp)
    (hsub : env.subscribeRes osp.query osp.operationName osp.vars = .error e) :
    (handleMsg env st msg).frames
      = [⟨msg.id, .error, some (errPayload e)⟩, ⟨msg.id, .complete, none⟩] ∧
    (handleMsg env st msg).st.opDone = st.opDone ∧
    st.nextTok ∈ (handleMsg env st msg).st.cancelled ∧
    (handleMsg env st msg).running = true := by
  obtain ⟨mid, mp, mty⟩ := msg
  simp only at hty hid hun
  subst hty
  simp [handleMsg, hid, hun, hsub]

/-- C8: a second `start` whose id is already tracked (and whose `Subscribe`
succeeds) replaces the tracked cancellation handle with the new operation's
fresh handle without invoking the prior handle's cancellation: the old
handle stays un-cancelled (its goroutine keeps running, detached from the
table), and the dispatcher itself sends no frame. -/
theorem C8_duplicate_start_replaces (env : Env) (st : DState)
    (msg : operationMessage) (osp : startMessagePayload) (tokOld : Nat)
    (hty : msg.type = .start) (hid : msg.id ≠ "")
    (hun : env.unmarshalStart msg.payload = .ok osp)
    (hsub : env.subscribeRes osp.query osp.operationName osp.vars = .ok ())
    (hold : tblGet msg.id st.opDone = some tokOld)
    (hfresh : tokOld < st.nextTok)
    (hnc : tokOld ∉ st.cancelled) :
    tblGet msg.id (handleMsg env st msg).st.opDone = some st.nextTok ∧
    st.nextTok ≠ tokOld ∧
    tokOld ∉ (handleMsg env st msg).st.cancelled ∧
    (handleMsg env st msg).frames = [] := by
  obtain ⟨mid, mp, mty⟩ := msg
  simp only at hty hid hun hold
  subst hty
  refine ⟨?_, ?_, ?_, ?_⟩
  · simp [handleMsg, hid, hun, hsub, tblGet_tblSet]
  · omega
  · simp [handleMsg, hid, hun, hsub, hnc]
  · simp [handleMsg, hid, hun, hsub]

/-- C9: for a `receive` message, when the payload decodes, `Exec` is called
synchronously with the query obtained by interpolating the client-supplied
id into the fixed template `mutation \x7breceive_socket_event(id:%s)\x7d`,
and the reply is a `pong` frame with an empty id carrying the JSON-encoded
response, or an `error` frame keyed to the message's id when payload
decoding or response encoding fails. -/
theorem C9_receive_exec (env : Env) (st : DState) (mid payload : String) :
    (handleMsg env st ⟨mid, payload, .receive⟩).st = st ∧
    (handleMsg env st ⟨mid, payload, .receive⟩).running = true ∧
    (match env.unmarshalReceive payload with
     | .error e =>
        (handleMsg env st ⟨mid, payload, .receive⟩).frames
          = [⟨mid, .error, some (errPayload e)⟩] ∧
        (handleMsg env st ⟨mid, payload, .receive⟩).effects = []
     | .ok rp =>
        (handleMsg env st ⟨mid, payload, .receive⟩).effects
          = [.execCall (receiveQuery rp.id)] ∧
        (match env.marshalResponse (env.exec (receiveQuery rp.id)) with
         | .ok rj =>
            (handleMsg env st ⟨mid, payload, .receive⟩).frames
              = [⟨"", .pong, some rj⟩]
         | .error e =>
            (handleMsg env st ⟨mid, payload, .receive⟩).frames
              = [⟨mid, .error, some (errPayload e)⟩])) := by
  rcases hu : env.unmarshalReceive payload with e | rp
  · simp [handleMsg, hu]
  · rcases hm : env.marshalResponse (env.exec (receiveQuery rp.id)) with e2 | rj <;>
      simp [handleMsg, hu, hm]

/-- C10: every `error`/`connection_error` payload the dispatcher or a
streaming goroutine emits is produced by `errPayload`, and for any error
input `errPayload` returns exactly the well-formed JSON object
`\x7b"message": m\x7d` (its strict parser recovers the original message, so
the ignored Marshal-error branch is unreachable for this struct shape). -/
theorem C10_errPayload_wellformed :
    (∀ m : String, parseErrPayload (errPayload m) = some m) ∧
    (∀ (env : Env) (st : DState) (msg : operationMessage),
      ∀ f ∈ (handleMsg env st msg).frames,
        (f.type = operationMessageType.error ∨ f.type = operationMessageType.connection_error) →
        ∃ em, f.payload = some (errPayload em)) ∧
    (∀ (id : String) (evs : List StreamEv), ∀ f ∈ streamLoop id evs,
        f.type = operationMessageType.error →
        ∃ em, f.payload = some (errPayload em)) := by
  refine ⟨parse_errPayload, ?_, ?_⟩
  · intro env st msg f hf hty
    obtain ⟨mid, mp, mty⟩ := msg
    cases mty with
    | connection_init =>
      rcases h : env.unmarshalInit mp with e | u
      · simp [handleMsg, h] at hf
        subst hf
        exact ⟨"invalid payload for type: connection_init", rfl⟩
      · simp [handleMsg, h] at hf
        subst hf
        simp at hty
    | start =>
      by_cases hid : mid = ""
      · simp [handleMsg, hid] at hf
        subst hf
        exact ⟨"missing ID for start operation", rfl⟩
      · rcases h : env.unmarshalStart mp with e | osp
        · simp [handleMsg, hid, h] at hf
          subst hf
          exact ⟨"invalid payload for type: start", rfl⟩
        · rcases h2 : env.subscribeRes osp.query osp.operationName osp.vars with e2 | u
          · simp [handleMsg, hid, h, h2] at hf
            rcases hf with hf | hf
            · subst hf
              exact ⟨e2, rfl⟩
            · subst hf
              simp at hty
          · simp [handleMsg, hid, h, h2] at hf
    | stop =>
      rcases h : tblGet mid st.opDone with _ | tok <;> simp [handleMsg, h] at hf <;>
        subst hf <;> simp at hty
    | ping =>
      rcases h : env.marshalResponse (env.exec pingQuery) with e | rj
      · simp [handleMsg, h] at hf
        subst hf
        exact ⟨e, rfl⟩
      · simp [handleMsg, h] at hf
        subst hf
        simp at hty
    | receive =>
      rcases h : env.unmarshalReceive mp with e | rp
      · simp [handleMsg, h] at hf
        subst hf
        exact ⟨e, rfl⟩
      · rcases h2 : env.marshalResponse (env.exec (receiveQuery rp.id)) with e2 | rj
        · simp [handleMsg, h, h2] at hf
          subst hf
          exact ⟨e2, rfl⟩
        · simp [handleMsg, h, h2] at hf
          subst hf
          simp at hty
    | connection_terminate => simp [handleMsg] at hf
    | complete =>
      simp [handleMsg] at hf
      subst hf
      exact ⟨_, rfl⟩
    | connection_ack =>
      simp [handleMsg] at hf
      subst hf
      exact ⟨_, rfl⟩
    | connection_error =>
      simp [handleMsg] at hf
      subst hf
      exact ⟨_, rfl⟩
    | ka =>
      simp [handleMsg] at hf
      subst hf
      exact ⟨_, rfl⟩
    | data =>
      simp [handleMsg] at hf
      subst hf
      exact ⟨_, rfl⟩
    | error =>
      simp [handleMsg] at hf
      subst hf
      exact ⟨_, rfl⟩
    | pong =>
      simp [handleMsg] at hf
      subst hf
      exact ⟨_, rfl⟩
  · intro id evs
    induction evs with
    | nil =>
      intro f hf _
      simp [streamLoop] at hf
    | cons e rest ih =>
      intro f hf hty
      cases e with
      | ctxDone => simp [streamLoop] at hf
      | chanClosed =>
        simp [streamLoop] at hf
        subst hf
        simp at hty
      | chanVal v =>
        cases v with
        | enc s =>
          simp [streamLoop, goMarshal] at hf
          rcases hf with hf | hf
          · subst hf
            simp at hty
          · exact ih f hf hty
        | unenc e2 =>
          simp [streamLoop, goMarshal] at hf
          rcases hf with hf | hf
          · subst hf
            exact ⟨e2, rfl⟩
          · exact ih f hf hty

/-- Witness for C10 at concrete inputs: the round trip on "boom", and the
error frame the dispatcher emits for a failing `Subscribe` carries an
`errPayload`. -/
theorem C10_witness :
    parseErrPayload (errPayload "boom") = some "boom" ∧
    (∃ em, (some (errPayload "boom") : Option String) = some (errPayload em)) :=
  ⟨C10_errPayload_wellformed.1 "boom",
   C10_errPayload_wellformed.2.1 envW stW ⟨"1", "p", .start⟩
     ⟨"1", .error, some (errPayload "boom")⟩
     (by simp [handleMsg, envW, stW]) (Or.inl rfl)⟩

theorem streamLoop_vals (id : String) (vs : List GoVal) :
    streamLoop id (vs.map StreamEv.chanVal ++ [StreamEv.chanClosed])
      = vs.map (fun v => match goMarshal v with
          | .ok p => (⟨id, .data, some p⟩ : Frame)
          | .error e => ⟨id, .error, some (errPayload e)⟩)
        ++ [⟨id, .complete, none⟩] := by
  induction vs with
  | nil => simp [streamLoop]
  | cons v rest ih => cases v <;> simp [streamLoop, goMarshal, ih]

/-- C1 (amended): for a `start` with a fresh id, decodable payload and
successful `Subscribe`, when the operation is not superseded by a `stop` or
teardown (no `ctxDone` in its trace; the upstream eventually closes), the
frames sent for that id are zero or more `data`-or-`error` frames (`error`
frames arise from per-value encoding failures and do not terminate the
stream) followed by exactly one `complete`: exactly one `complete` is sent,
it comes last, and the sequence is never empty. -/
theorem C1_amended_stream_frames (id : String) (vs : List GoVal) :
    streamLoop id (vs.map StreamEv.chanVal ++ [StreamEv.chanClosed])
      = vs.map (fun v => match goMarshal v with
          | .ok p => (⟨id, .data, some p⟩ : Frame)
          | .error e => ⟨id, .error, some (errPayload e)⟩)
        ++ [⟨id, .complete, none⟩] ∧
    (streamLoop id (vs.map StreamEv.chanVal ++ [StreamEv.chanClosed])).countP
      (fun f => decide (f.type = operationMessageType.complete)) = 1 ∧
    (streamLoop id (vs.map StreamEv.chanVal ++ [StreamEv.chanClosed])).getLast?
      = some ⟨id, .complete, none⟩ ∧
    (∀ f ∈ (streamLoop id (vs.map StreamEv.chanVal ++ [StreamEv.chanClosed])).dropLast,
      f.id = id ∧
        (f.type = operationMessageType.data ∨ f.type = operationMessageType.error)) ∧
    streamLoop id (vs.map StreamEv.chanVal ++ [StreamEv.chanClosed]) ≠ [] := by
  refine ⟨streamLoop_vals id vs, ?_, ?_, ?_, ?_⟩
  · rw [streamLoop_vals id vs, List.countP_append]
    have hz : (vs.map (fun v => match goMarshal v with
        | .ok p => (⟨id, .data, some p⟩ : Frame)
        | .error e => ⟨id, .error, some (errPayload e)⟩)).countP
        (fun f => decide (f.type = operationMessageType.complete)) = 0 := by
      rw [List.countP_eq_zero]
      intro f hf
      simp only [List.mem_map] at hf
      obtain ⟨v, _, hv⟩ := hf
      cases v <;> simp [goMarshal] at hv <;> subst hv <;> simp
    rw [hz]
    rfl
  · rw [streamLoop_vals id vs]
    simp
  · rw [streamLoop_vals id vs]
    intro f hf
    rw [List.dropLast_concat] at hf
    simp only [List.mem_map] at hf
    obtain ⟨v, _, hv⟩ := hf
    cases v <;> simp [goMarshal] at hv <;> subst hv <;> simp
  · rw [streamLoop_vals id vs]
    simp

/-- C1 counterexample: a legal trace for a successful `start` (no `stop`,
no teardown: no `ctxDone`, upstream closes at the end) in which one value
fails to encode: the sent frames are `error`, `data`, `complete` — neither
"zero or more data then one complete" nor "one error then one complete",
refuting the claimed shape. -/
theorem C1_counterexample :
    (∀ e ∈ c1BadTrace, e ≠ StreamEv.ctxDone) ∧
    c1BadTrace.getLast? = some StreamEv.chanClosed ∧
    c1ShapeB "1" (streamLoop "1" c1BadTrace) = false := by
  refine ⟨by decide, rfl, by rfl⟩

/-- Witness for C1 at a concrete input: one encodable value then close. -/
theorem C1_witness :
    (streamLoop "1" ([GoVal.enc "A"].map StreamEv.chanVal ++ [StreamEv.chanClosed])).countP
      (fun f => decide (f.type = operationMessageType.complete)) = 1 ∧
    streamLoop "1" ([GoVal.enc "A"].map StreamEv.chanVal ++ [StreamEv.chanClosed]) ≠ [] :=
  ⟨(C1_amended_stream_frames "1" [GoVal.enc "A"]).2.1,
   (C1_amended_stream_frames "1" [GoVal.enc "A"]).2.2.2.2⟩

theorem tstep_inv (s : TState) (e : TEv)
    (h1 : s.closeCount
      = (if s.readerExited then 1 else 0) + (if s.writerExited then 1 else 0))
    (h2 : 0 < s.closeCount → s.cancelled = true) :
    (tstep s e).closeCount
      = (if (tstep s e).readerExited then 1 else 0)
        + (if (tstep s e).writerExited then 1 else 0) ∧
    (0 < (tstep s e).closeCount → (tstep s e).cancelled = true) := by
  cases e <;> simp only [tstep, connClose] <;> split_ifs <;> simp_all

theorem trun_inv (evs : List TEv) : ∀ s : TState,
    s.closeCount = (if s.readerExited then 1 else 0) + (if s.writerExited then 1 else 0) →
    (0 < s.closeCount → s.cancelled = true) →
    ((trun s evs).closeCount
      = (if (trun s evs).readerExited then 1 else 0)
        + (if (trun s evs).writerExited then 1 else 0) ∧
     (0 < (trun s evs).closeCount → (trun s evs).cancelled = true)) := by
  induction evs with
  | nil =>
    intro s h1 h2
    exact ⟨h1, h2⟩
  | cons e es ih =>
    intro s h1 h2
    have h := tstep_inv s e h1 h2
    simpa only [trun] using ih (tstep s e) h.1 h.2

/-- C2 (amended): teardown runs on every exit path and cancellation of the
root scope is idempotent — any invocation of `conn.close` leaves the scope
cancelled — but `ws.Close` is invoked once by the reader's deferred
teardown and once by the writer's deferred teardown, so a connection on
which both loops have exited has had `Close` invoked exactly twice, not
once. -/
theorem C2_amended_teardown (evs : List TEv) :
    (trun tInit evs).closeCount
      = (if (trun tInit evs).readerExited then 1 else 0)
        + (if (trun tInit evs).writerExited then 1 else 0) ∧
    (0 < (trun tInit evs).closeCount → (trun tInit evs).cancelled = true) ∧
    ((trun tInit evs).readerExited = true → (trun tInit evs).writerExited = true →
      (trun tInit evs).closeCount = 2 ∧ (trun tInit evs).cancelled = true) := by
  have h := trun_inv evs tInit rfl (by intro hc; simp [tInit] at hc)
  refine ⟨h.1, h.2, ?_⟩
  intro hr hw
  refine ⟨by rw [h.1, hr, hw]; rfl, h.2 (by rw [h.1, hr, hw]; norm_num)⟩

/-- C2 counterexample: a transport read error tears the session down — the
reader exits and runs its deferred `conn.close`, then the writer observes
cancellation and runs its own deferred `conn.close` — and once both loops
have exited the transport's `Close` has been invoked twice, not exactly
once as claimed. -/
theorem C2_counterexample :
    (trun tInit [.readError, .readerExit, .writerExit]).readerExited = true ∧
    (trun tInit [.readError, .readerExit, .writerExit]).writerExited = true ∧
    (trun tInit [.readError, .readerExit, .writerExit]).closeCount = 2 ∧
    (trun tInit [.readError, .readerExit, .writerExit]).closeCount ≠ 1 := by
  decide

/-- Witness for C2 at the concrete read-error schedule. -/
theorem C2_witness :
    (trun tInit [TEv.readError, TEv.readerExit, TEv.writerExit]).closeCount = 2 ∧
    (trun tInit [TEv.readError, TEv.readerExit, TEv.writerExit]).cancelled = true :=
  (C2_amended_teardown [TEv.readError, TEv.readerExit, TEv.writerExit]).2.2
    (by decide) (by decide)

/-- C3: in the sender LTS, every transport write operation (`WriteJSON` or
`SetWriteDeadline`) is performed by the writer thread; any other producer
interacts only through `send`, which either hands the frame into the
rendezvous slot (when the sender is live) or is a no-op leaving the state
untouched (when the connection is shutting down). -/
theorem C3_single_writer :
    (∀ (s s' : WLState) (t : ThreadId) (a : WsAct), WStep s (t, a) s' →
      ((∃ f, a = WsAct.writeJSON f) ∨ a = WsAct.setWriteDeadline) →
      t = ThreadId.writer) ∧
    (∀ (s s' : WLState) (t : ThreadId), WStep s (t, WsAct.sendNoop) s' →
      s.stopClosed = true ∧ s' = s) ∧
    (∀ (s s' : WLState) (t : ThreadId) (f : Frame),
      WStep s (t, WsAct.sendHandoff f) s' →
      s.stopClosed = false ∧ s'.slot = some f) := by
  refine ⟨?_, ?_, ?_⟩
  · intro s s' t a h ha
    cases h <;> first
      | rfl
      | (rcases ha with ⟨g, hg⟩ | hg <;> simp_all)
  · intro s s' t h
    cases h with
    | producerNoop t s hne hstop => exact ⟨hstop, rfl⟩
  · intro s s' t f h
    cases h with
    | producerHandoff t f s hne hstop hslot => exact ⟨hstop, rfl⟩

/-- Witness for C3: a concrete writer step, and the theorem applied to it. -/
theorem C3_witness :
    WStep wS0 (ThreadId.writer, WsAct.writeJSON wF)
      { wS0 with slot := none, written := wS0.written ++ [wF] } ∧
    ThreadId.writer = ThreadId.writer :=
  ⟨WStep.writerWrite wS0 wF rfl rfl,
   C3_single_writer.1 wS0 _ ThreadId.writer (WsAct.writeJSON wF)
     (WStep.writerWrite wS0 wF rfl rfl) (Or.inl ⟨wF, rfl⟩)⟩

theorem stopStep_handled (id : String) (s : StopState) (e : StopEv) :
    (stopStep id s e).stopHandled
      = (s.stopHandled || decide (e = StopEv.dispatchStop)) := by
  cases e with
  | dispatchStop => by_cases h : s.stopHandled <;> simp [stopStep, h]
  | goRecv =>
    by_cases h : s.goExited
    · simp [stopStep, h]
    · rcases hp : s.pending with _ | ⟨v, rest⟩
      · simp [stopStep, h, hp]
      · cases v <;> simp [stopStep, h, hp, goMarshal]
  | goDone =>
    by_cases h : s.goExited
    · simp [stopStep, h]
    · by_cases h2 : s.opCancelled <;> simp [stopStep, h, h2]

theorem stopRun_handled_mono (id : String) (evs : List StopEv) : ∀ s : StopState,
    s.stopHandled = true → (stopRun id s evs).stopHandled = true := by
  induction evs with
  | nil =>
    intro s h
    exact h
  | cons e es ih =>
    intro s h
    simp only [stopRun]
    exact ih (stopStep id s e) (by rw [stopStep_handled, h]; rfl)

theorem stopRun_handled_of_mem (id : String) (evs : List StopEv)
    (hm : StopEv.dispatchStop ∈ evs) : ∀ s : StopState,
    (stopRun id s evs).stopHandled = true := by
  induction evs with
  | nil => cases hm
  | cons e es ih =>
    intro s
    rcases List.mem_cons.mp hm with he | he
    · subst he
      simp only [stopRun]
      exact stopRun_handled_mono id es _ (by rw [stopStep_handled]; simp)
    · exact ih he (stopStep id s e)

theorem stopRun_handled_of_not (id : String) (evs : List StopEv)
    (hm : ∀ e ∈ evs, e ≠ StopEv.dispatchStop) : ∀ s : StopState,
    (stopRun id s evs).stopHandled = s.stopHandled := by
  induction evs with
  | nil =>
    intro s
    rfl
  | cons e es ih =>
    intro s
    have he : e ≠ StopEv.dispatchStop := hm e (List.mem_cons_self e es)
    have hm2 : ∀ x ∈ es, x ≠ StopEv.dispatchStop := fun x hx => hm x (List.mem_cons_of_mem e hx)
    simp only [stopRun]
    rw [ih hm2 (stopStep id s e), stopStep_handled]
    simp [he]

theorem stopStep_dcc (id : String) (s : StopState) (e : StopEv)
    (h : dispCompleteCount id s.frames = if s.stopHandled then 1 else 0) :
    dispCompleteCount id (stopStep id s e).frames
      = if (stopStep id s e).stopHandled then 1 else 0 := by
  cases e with
  | dispatchStop =>
    by_cases hh : s.stopHandled
    · simpa [stopStep, hh] using h
    · simp only [stopStep, hh, if_false, Bool.false_eq_true]
      simp only [dispCompleteCount, List.countP_append] at h ⊢
      simp [h, hh]
  | goRecv =>
    by_cases hh : s.goExited
    · simpa [stopStep, hh] using h
    · rcases hp : s.pending with _ | ⟨v, rest⟩
      · simp only [stopStep, hh, hp, Bool.false_eq_true, if_false]
        simp only [dispCompleteCount, List.countP_append] at h ⊢
        simp [h]
      · cases v <;>
          (simp only [stopStep, hh, hp, goMarshal, Bool.false_eq_true, if_false]
           simp only [dispCompleteCount, List.countP_append] at h ⊢
           simp [h])
  | goDone =>
    by_cases hh : s.goExited
    · simpa [stopStep, hh] using h
    · by_cases h2 : s.opCancelled <;> simpa [stopStep, hh, h2] using h

theorem stopRun_dcc (id : String) (evs : List StopEv) : ∀ s : StopState,
    dispCompleteCount id s.frames = (if s.stopHandled then 1 else 0) →
    dispCompleteCount id (stopRun id s evs).frames
      = if (stopRun id s evs).stopHandled then 1 else 0 := by
  induction evs with
  | nil =>
    intro s h
    exact h
  | cons e es ih =>
    intro s h
    simp only [stopRun]
    exact ih (stopStep id s e) (stopStep_dcc id s e h)

theorem stopStep_frames_id (id : String) (s : StopState) (e : StopEv)
    (h : ∀ p ∈ s.frames, (Prod.snd p).id = id) :
    ∀ p ∈ (stopStep id s e).frames, (Prod.snd p).id = id := by
  cases e with
  | dispatchStop =>
    by_cases hh : s.stopHandled
    · simpa [stopStep, hh] using h
    · intro p hp
      simp only [stopStep, hh, Bool.false_eq_true, if_false, List.mem_append] at hp
      rcases hp with hp | hp
      · exact h p hp
      · simp at hp
        subst hp
        rfl
  | goRecv =>
    by_cases hh : s.goExited
    · simpa [stopStep, hh] using h
    · rcases hpd : s.pending with _ | ⟨v, rest⟩
      · intro p hp
        simp only [stopStep, hh, hpd, Bool.false_eq_true, if_false, List.mem_append] at hp
        rcases hp with hp | hp
        · exact h p hp
        · simp at hp
          subst hp
          rfl
      · cases v with
        | enc sv =>
          intro p hp
          simp only [stopStep, hh, hpd, goMarshal, Bool.false_eq_true, if_false,
            List.mem_append] at hp
          rcases hp with hp | hp
          · exact h p hp
          · simp at hp
            subst hp
            rfl
        | unenc ev =>
          intro p hp
          simp only [stopStep, hh, hpd, goMarshal, Bool.false_eq_true, if_false,
            List.mem_append] at hp
          rcases hp with hp | hp
          · exact h p hp
          · simp at hp
            subst hp
            rfl
  | goDone =>
    by_cases hh : s.goExited
    · simpa [stopStep, hh] using h
    · by_cases h2 : s.opCancelled <;> simpa [stopStep, hh, h2] using h

theorem stopRun_frames_id (id : String) (evs : List StopEv) : ∀ s : StopState,
    (∀ p ∈ s.frames, (Prod.snd p).id = id) →
    ∀ p ∈ (stopRun id s evs).frames, (Prod.snd p).id = id := by
  induction evs with
  | nil =>
    intro s h
    exact h
  | cons e es ih =>
    intro s h
    simp only [stopRun]
    exact ih (stopStep id s e) (stopStep_frames_id id s e h)

/-- C4 (amended): the `stop` handler sends exactly one `complete` for the
stopped id (and none when no stop is dispatched); once the cancelled
operation's goroutine takes its `ctx.Done` branch it sends nothing further;
every frame in the race carries the operation's id — but the cancelled
goroutine may still send `data` (or a final `complete`) for that id after
the stop's `complete`, because its `select` between cancellation and a
pending value is not prioritised. -/
theorem C4_amended_stop_complete (id : String) (vs : List GoVal) (evs : List StopEv) :
    (StopEv.dispatchStop ∈ evs →
      dispCompleteCount id (stopRun id (stopInit vs) evs).frames = 1) ∧
    ((∀ e ∈ evs, e ≠ StopEv.dispatchStop) →
      dispCompleteCount id (stopRun id (stopInit vs) evs).frames = 0) ∧
    (∀ s : StopState, s.goExited = true →
      stopStep id s StopEv.goRecv = s ∧ stopStep id s StopEv.goDone = s) ∧
    (∀ p ∈ (stopRun id (stopInit vs) evs).frames, (Prod.snd p).id = id) := by
  have hbase : dispCompleteCount id (stopInit vs).frames
      = if (stopInit vs).stopHandled then 1 else 0 := rfl
  refine ⟨?_, ?_, ?_, ?_⟩
  · intro hm
    rw [stopRun_dcc id evs (stopInit vs) hbase, stopRun_handled_of_mem id evs hm]
    rfl
  · intro hm
    rw [stopRun_dcc id evs (stopInit vs) hbase, stopRun_handled_of_not id evs hm]
    rfl
  · intro s h
    exact ⟨by simp [stopStep, h], by simp [stopStep, h]⟩
  · exact stopRun_frames_id id evs (stopInit vs) (by intro p hp; cases hp)

/-- C4 counterexample: operation "1" has a pending upstream value when the
dispatcher handles `stop` (cancel, then send `complete`); the goroutine's
`select` then takes the still-ready channel case, so a `data` frame for
id "1" is sent after the `complete` — refuting "no data frame for that id
is sent after that complete". -/
theorem C4_counterexample :
    ((stopRun "1" (stopInit [GoVal.enc "A"])
        [StopEv.dispatchStop, StopEv.goRecv]).frames.map Prod.snd)
      = [⟨"1", operationMessageType.complete, none⟩,
         ⟨"1", operationMessageType.data, some "A"⟩] ∧
    noDataAfterComplete "1" ((stopRun "1" (stopInit [GoVal.enc "A"])
        [StopEv.dispatchStop, StopEv.goRecv]).frames.map Prod.snd) = false := by
  exact ⟨rfl, rfl⟩

/-- Witness for C4 at the concrete racing schedule. -/
theorem C4_witness :
    dispCompleteCount "1" ((stopRun "1" (stopInit [GoVal.enc "A"])
      [StopEv.dispatchStop, StopEv.goRecv]).frames) = 1 :=
  (C4_amended_stop_complete "1" [GoVal.enc "A"]
    [StopEv.dispatchStop, StopEv.goRecv]).1 (by decide)

/-- Witness for C5 at a concrete stop on an empty table. -/
theorem C5_witness :
    (handleMsg envW stW ⟨"1", "p", .stop⟩).frames = [⟨"1", .complete, none⟩] :=
  (C5_stop_idempotent envW stW "1" "p").1

/-- Witness for C6 at a concrete empty-id start. -/
theorem C6_witness :
    (handleMsg envW stW ⟨"", "p", .start⟩).frames
      = [⟨"", .connection_error, some (errPayload "missing ID for start operation")⟩] :=
  (C6_start_missing_id envW stW "p").1

/-- Witness for C7: concrete environment whose `Subscribe` fails. -/
theorem C7_witness :
    envW.unmarshalStart "p" = .ok ⟨"opn", "q", []⟩ ∧
    envW.subscribeRes "q" "opn" [] = .error "boom" ∧
    (handleMsg envW stW ⟨"1", "p", .start⟩).frames
      = [⟨"1", .error, some (errPayload "boom")⟩, ⟨"1", .complete, none⟩] ∧
    (handleMsg envW stW ⟨"1", "p", .start⟩).st.opDone = stW.opDone :=
  ⟨rfl, rfl,
   (C7_subscribe_error envW stW ⟨"1", "p", .start⟩ ⟨"opn", "q", []⟩ "boom"
      rfl (by decide) rfl rfl).1,
   (C7_subscribe_error envW stW ⟨"1", "p", .start⟩ ⟨"opn", "q", []⟩ "boom"
      rfl (by decide) rfl rfl).2.1⟩

/-- Witness for C8: a colliding start on a table tracking "1" with handle 0. -/
theorem C8_witness :
    tblGet "1" stDup.opDone = some 0 ∧
    tblGet "1" (handleMsg envOk stDup ⟨"1", "p", .start⟩).st.opDone
      = some stDup.nextTok ∧
    (0 : Nat) ∉ (handleMsg envOk stDup ⟨"1", "p", .start⟩).st.cancelled :=
  ⟨rfl,
   (C8_duplicate_start_replaces envOk stDup ⟨"1", "p", .start⟩ ⟨"opn", "q", []⟩ 0
      rfl (by decide) rfl rfl rfl (by decide) (by simp [stDup])).1,
   (C8_duplicate_start_replaces envOk stDup ⟨"1", "p", .start⟩ ⟨"opn", "q", []⟩ 0
      rfl (by decide) rfl rfl rfl (by decide) (by simp [stDup])).2.2.1⟩

/-- Witness for C9 at a concrete receive message. -/
theorem C9_witness :
    (handleMsg envW stW ⟨"1", "p", .receive⟩).st = stW :=
  (C9_receive_exec envW stW "1" "p").1

end GraphqlWS
